import Mathlib

/-!
Shallow embedding of the pixelcraft repository (src/main.js, first document, and
src/vite.config.js, express-server document) together with proofs about the
character model builder, the scene assembler, the player controller, the click
interaction and the schema validator.

Numeric values are modelled over the rationals. This is exact for the facts
proved here: `Math.max`/`Math.min` clamping returns one of its argument values
under doubles exactly as under rationals, and the frame-effect results compare
runs of the same computation on the same inputs. It is deliberately not relied
on for the cumulative vertical descent `y -= 0.01`: under the source's IEEE
double arithmetic that subtraction is inexact, the accumulated error carries the
player slightly below ground level before the snap (behaviour an exact-rational
model cannot exhibit), so no claim about the trajectory of `y` across frames is
settled against the rational idealization. Scene raycasting is abstracted as an
oracle producing intersection lists; everything built on top of the oracle is
translated from the source.
-/

namespace PixelCraft

/-! ## Association-list machinery modelling JavaScript plain-object dictionaries -/

/-- Boolean membership test on a list of strings. -/
def memb (n : String) (l : List String) : Bool :=
  match l with
  | [] => false
  | a :: t => a == n || memb n t

/-- Insert-or-replace for an association list keyed by strings: assigning to an
existing key replaces its value in place, a fresh key is appended at the end.
This is the update discipline of a JavaScript plain object. -/
def upsert {α : Type} (l : List (String × α)) (k : String) (v : α) : List (String × α) :=
  match l with
  | [] => [(k, v)]
  | (k1, v1) :: t => if k1 = k then (k, v) :: t else (k1, v1) :: upsert t k v

/-- Lookup in an association list (property read on a JavaScript object). -/
def alookup {α : Type} (l : List (String × α)) (k : String) : Option α :=
  match l with
  | [] => none
  | (k1, v1) :: t => if k1 = k then some v1 else alookup t k

/-! ## Geometry construction (src/main.js lines 17-40, `createGeometry`) -/

/-- ASCII lowercase mapping of one character, as `String.toLowerCase` acts on the
ASCII shape strings this codebase uses. -/
def lowerChar (c : Char) : Char :=
  if 65 ≤ c.toNat ∧ c.toNat ≤ 90 then Char.ofNat (c.toNat + 32) else c

/-- Models `shape.toLowerCase()` on ASCII strings. -/
def jsToLower (s : String) : String :=
  String.mk (s.data.map lowerChar)

/-- Geometry constructor calls of the underlying 3D library, recording which
constructor ran and which size arguments were passed. `none` models passing
`undefined` (a missing array component); tessellation segment counts (the
constant 16s in the source) carry no claim content and are omitted. -/
inductive Geometry where
  | sphere (radius : Option ℚ)
  | box (width height depth : Option ℚ)
  | cylinder (radiusTop radiusBottom height : Option ℚ)
  | plane (width height : Option ℚ)
deriving DecidableEq

/-- JavaScript `v || d` on a possibly-missing numeric value: `undefined` and `0`
are falsy and give the default. -/
def jsFalsyOr (v : Option ℚ) (d : ℚ) : ℚ :=
  match v with
  | none => d
  | some x => if x = 0 then d else x

/-- Shape dispatch of `createGeometry` on the already-lowercased shape string
(src/main.js lines 20-39). -/
def createGeometryCore (s : String) (size : List ℚ) : Geometry :=
  match s with
  | "sphere" => Geometry.sphere (size.get? 0)
  | "block" => Geometry.box (size.get? 0) (size.get? 1) (size.get? 2)
  | "box" => Geometry.box (size.get? 0) (size.get? 1) (size.get? 2)
  | "cylinder" => Geometry.cylinder (size.get? 0) (size.get? 0) (size.get? 1)
  | "plane" => Geometry.plane (size.get? 0) (size.get? 1)
  | "cylinder (leg)" => Geometry.cylinder (size.get? 0) (size.get? 0) (size.get? 1)
  | _ => Geometry.box (some (jsFalsyOr (size.get? 0) (1/2)))
      (some (jsFalsyOr (size.get? 1) (1/2))) (some (jsFalsyOr (size.get? 2) (1/2)))

/-- Models `createGeometry(shape, size)` (src/main.js line 18): dispatch on
`shape.toLowerCase()`. -/
def createGeometry (shape : String) (size : List ℚ) : Geometry :=
  createGeometryCore (jsToLower shape) size

/-- Modelled from the claim wording of C8 (the shape-to-geometry mapping as the
spec states it): sphere, box/block, cylinder, plane, and every other shape a box
whose extent on each axis is the corresponding size component, defaulting to 0.5
only on a missing axis. -/
def claimedGeometry (shape : String) (size : List ℚ) : Geometry :=
  match jsToLower shape with
  | "sphere" => Geometry.sphere (size.get? 0)
  | "block" => Geometry.box (size.get? 0) (size.get? 1) (size.get? 2)
  | "box" => Geometry.box (size.get? 0) (size.get? 1) (size.get? 2)
  | "cylinder" => Geometry.cylinder (size.get? 0) (size.get? 0) (size.get? 1)
  | "plane" => Geometry.plane (size.get? 0) (size.get? 1)
  | _ => Geometry.box (some ((size.get? 0).getD (1/2)))
      (some ((size.get? 1).getD (1/2))) (some ((size.get? 2).getD (1/2)))

/-- Modelled from the amended claim wording of C8: as `claimedGeometry`, but
`"cylinder (leg)"` is additionally recognized as a cylinder, and the fallback box
defaults to 0.5 on any axis whose size component is missing or zero (JavaScript
falsiness), not merely missing. -/
def claimedGeometryAmended (shape : String) (size : List ℚ) : Geometry :=
  match jsToLower shape with
  | "sphere" => Geometry.sphere (size.get? 0)
  | "block" => Geometry.box (size.get? 0) (size.get? 1) (size.get? 2)
  | "box" => Geometry.box (size.get? 0) (size.get? 1) (size.get? 2)
  | "cylinder" => Geometry.cylinder (size.get? 0) (size.get? 0) (size.get? 1)
  | "plane" => Geometry.plane (size.get? 0) (size.get? 1)
  | "cylinder (leg)" => Geometry.cylinder (size.get? 0) (size.get? 0) (size.get? 1)
  | _ => Geometry.box (some (jsFalsyOr (size.get? 0) (1/2)))
      (some (jsFalsyOr (size.get? 1) (1/2))) (some (jsFalsyOr (size.get? 2) (1/2)))

/-! ## Character model builder (src/main.js lines 52-93, `createCharacterModel`) -/

/-- One entry of a character document's `parts` array. -/
structure PartSpec where
  name : String
  shape : String
  size : List ℚ
  color : ℕ
  position : ℚ × ℚ × ℚ
deriving DecidableEq

/-- One entry of a character document's `welds` array. -/
structure WeldSpec where
  part0 : String
  part1 : String
deriving DecidableEq

/-- The part/weld portion of a character model definition. -/
structure ModelDef where
  parts : List PartSpec
  welds : List WeldSpec
deriving DecidableEq

/-- A constructed mesh: geometry, material color, local position, and the
`userData.name` tag (JavaScript `userData` starts out as an empty object, so a
freshly built mesh carries no name). -/
structure Mesh where
  geometry : Geometry
  color : ℕ
  position : ℚ × ℚ × ℚ
  userDataName : Option String
deriving DecidableEq

/-- Mesh built for one part (src/main.js lines 66-72): geometry from shape and
size, material from color, position set from the part's position. -/
def buildMesh (p : PartSpec) : Mesh :=
  { geometry := createGeometry p.shape p.size
    color := p.color
    position := p.position
    userDataName := none }

/-- The `parts` dictionary (src/main.js lines 65-73): `parts[p.name] = mesh` in
array order, a later part with the same name overwriting the earlier mesh. -/
def partsDict (d : ModelDef) : List (String × Mesh) :=
  d.parts.foldl (fun acc p => upsert acc p.name (buildMesh p)) []

/-- The keys of the parts dictionary. -/
def partKeys (d : ModelDef) : List String :=
  (partsDict d).map Prod.fst

/-- Dictionary-key existence test, as in the guard `parts[w.part0] && parts[w.part1]`
(mesh objects are always truthy, so truthiness coincides with key existence). -/
def partDefined (d : ModelDef) (n : String) : Bool :=
  memb n (partKeys d)

/-- Whether a weld actually reparents anything: both names must resolve in the
parts dictionary (src/main.js line 78) and the two meshes must be distinct
objects, since `THREE.Object3D.add` rejects adding an object to itself. With the
dictionary keyed by name, object identity is name equality. -/
def weldValid (d : ModelDef) (w : WeldSpec) : Bool :=
  partDefined d w.part0 && partDefined d w.part1 && !(w.part0 == w.part1)

/-- Effect of one weld on the child-to-parent assignment (src/main.js line 79):
`parts[w.part0].add(parts[w.part1])` removes the child from any previous parent
and records the new one, i.e. an upsert on the child's name. -/
def addWeld (d : ModelDef) (par : List (String × String)) (w : WeldSpec) :
    List (String × String) :=
  if weldValid d w then upsert par w.part1 w.part0 else par

/-- Final child-to-parent assignment after the weld loop (src/main.js lines 77-81). -/
def parentAssoc (d : ModelDef) : List (String × String) :=
  d.welds.foldl (addWeld d) []

/-- Parent of a part mesh in the final object graph, if any. -/
def parentOf (d : ModelDef) (n : String) : Option String :=
  alookup (parentAssoc d) n

/-- The set `weldedParts` (src/main.js line 85): every `part1` of every weld, whether or
not the weld resolved. -/
def weldedNames (d : ModelDef) : List String :=
  d.welds.map (fun w => w.part1)

/-- Part names attached directly to the root group (src/main.js lines 86-90):
dictionary keys that never occur as a weld's `part1`. -/
def rootChildren (d : ModelDef) : List String :=
  (partKeys d).filter (fun n => !(memb n (weldedNames d)))

/-- Iterated parent steps through the final object graph. -/
def parentIter (d : ModelDef) : ℕ → String → Option String
  | 0, n => some n
  | k+1, n => (parentOf d n).bind (parentIter d k)

/-- Fuel-bounded test that the chain of parents starting from a part name ends at
a direct child of the root group. A part named by some weld's `part1` is never
attached to the root, so it is reachable exactly when its parent chain is;
chains that terminate do so within as many steps as there are dictionary keys,
because the parent assignment is a function and a longer chain would revisit a
name and hence loop forever. -/
def attachedB (d : ModelDef) : ℕ → String → Bool
  | 0, _ => false
  | fuel+1, n =>
    if memb n (weldedNames d) then
      match parentOf d n with
      | some p => attachedB d fuel p
      | none => false
    else partDefined d n

/-- Whether the mesh of a part name is reachable as a descendant of the model's
root group. -/
def attached (d : ModelDef) (n : String) : Bool :=
  attachedB d ((partKeys d).length + 1) n

/-- Number of primitive meshes reachable as descendants of the root group
returned by `createCharacterModel`: distinct dictionary keys whose meshes are
attached through some chain to the group. -/
def rootDescendantMeshCount (d : ModelDef) : ℕ :=
  ((partKeys d).filter (attached d)).length

/-- Fuel-bounded descendant test in the final object graph: `a`'s mesh lies in
the subtree of `b`'s mesh through a nonempty chain of parent links. As for
`attachedB`, a minimal witnessing chain never revisits a name, so as many steps
as there are dictionary keys suffice. -/
def descendantB (d : ModelDef) : ℕ → String → String → Bool
  | 0, _, _ => false
  | fuel+1, a, b =>
    match parentOf d a with
    | some p => p == b || descendantB d fuel p b
    | none => false

/-- Holds when the mesh of `a` is a descendant of the mesh of `b` in the built model. -/
def isDescendant (d : ModelDef) (a b : String) : Prop :=
  descendantB d ((partKeys d).length) a b = true

/-- The root group returned by `createCharacterModel` for a found definition:
its name, the part meshes, the final parent links and the names attached
directly to the group. -/
structure ModelGroup where
  groupName : String
  meshes : List (String × Mesh)
  parents : List (String × String)
  roots : List String
deriving DecidableEq

/-- Assembles the group for a model definition (src/main.js lines 60-92). -/
def buildModel (name : String) (d : ModelDef) : ModelGroup :=
  { groupName := name
    meshes := partsDict d
    parents := parentAssoc d
    roots := rootChildren d }

/-- Models `createCharacterModel(name)` (src/main.js lines 53-93): `null` when the
model-definition map has no entry for the name, otherwise the assembled group. -/
def createCharacterModel (models : String → Option ModelDef) (name : String) :
    Option ModelGroup :=
  (models name).map (buildModel name)

/-- The meshes of a built model that a recursive raycast against the scene can
hit: the part meshes reachable from the root group. -/
def modelMeshes (d : ModelDef) : List Mesh :=
  ((partKeys d).filter (attached d)).filterMap (fun n => alookup (partsDict d) n)

/-! ## World scene assembly (src/main.js lines 130-151, `placeCharacters`) -/

/-- A character roster entry, as far as placement is concerned. -/
structure CharEntry where
  name : String
  role : String
deriving DecidableEq

/-- What was added to the scene for one character: a built model group or the
fallback cube mesh. -/
inductive PlacedVisual where
  | model (g : ModelGroup)
  | fallbackCube (m : Mesh)
deriving DecidableEq

/-- A scene object placed for one character: the `userData.name` tag set on the
top-level object, its x and y position, and its visual. -/
structure PlacedEntity where
  name : String
  x : ℚ
  y : ℚ
  visual : PlacedVisual
deriving DecidableEq

/-- The fallback mesh (src/main.js lines 142-147): a box of side 0.5, white
material, positioned at the character's slot, tagged with the name. -/
def fallbackMesh (x : ℚ) (nm : String) : Mesh :=
  { geometry := Geometry.box (some (1/2)) (some (1/2)) (some (1/2))
    color := 0xffffff
    position := (x, 1/2, 0)
    userDataName := some nm }

/-- Placement of a single character at a given x slot (src/main.js lines 133-149). -/
def placeEntity (models : String → Option ModelDef) (c : CharEntry) (x : ℚ) :
    PlacedEntity :=
  match createCharacterModel models c.name with
  | some g => { name := c.name, x := x, y := 1/2, visual := PlacedVisual.model g }
  | none => { name := c.name, x := x, y := 1/2
              visual := PlacedVisual.fallbackCube (fallbackMesh x c.name) }

/-- Row spacing between placed characters (src/main.js line 131). -/
def spacing : ℚ := 3/2

/-- Models `placeCharacters(chars, startX)` (src/main.js lines 130-151), with the
running index made explicit: member `i` of the bucket is placed at
`startX + i * spacing`, height 0.5. -/
def placeCharacters (models : String → Option ModelDef) :
    List CharEntry → ℚ → ℕ → List PlacedEntity
  | [], _, _ => []
  | c :: rest, startX, i =>
      placeEntity models c (startX + (i : ℚ) * spacing) ::
        placeCharacters models rest startX (i + 1)

/-! ## Click interaction (src/main.js lines 303-314) -/

/-- Screen-to-normalized-device-coordinate conversion of the click listener
(src/main.js lines 304-307). -/
def toNDC (clientX clientY width height : ℚ) : ℚ × ℚ :=
  ((clientX / width) * 2 - 1, -((clientY / height) * 2) + 1)

/-- The click report (src/main.js lines 311-313): nothing when the ray hit
nothing, otherwise the `userData.name` of the nearest intersected object itself
(`none` inside models the name being `undefined` on that object). -/
def clickReport (intersects : List Mesh) : Option (Option String) :=
  match intersects with
  | [] => none
  | m :: _ => some m.userDataName

/-! ## Player controller (src/main.js lines 5-15, 194-300) -/

/-- The constant `playerSpeed` (src/main.js line 6). -/
def playerSpeed : ℚ := 1/10

/-- The constant `gravity` (src/main.js line 8). -/
def gravity : ℚ := 1/100

/-- The constant `groundLevel` (src/main.js line 9). -/
def groundLevel : ℚ := 0

/-- Arena bounds record. -/
structure Bounds where
  xMin : ℚ
  xMax : ℚ
  zMin : ℚ
  zMax : ℚ

/-- The constant `moveBounds` (src/main.js lines 10-15). -/
def moveBounds : Bounds :=
  { xMin := -10, xMax := 10, zMin := -10, zMax := 10 }

/-- Held direction keys at the moment of a frame. -/
structure Keys where
  forward : Bool
  backward : Bool
  left : Bool
  right : Bool
deriving DecidableEq

/-- Per-frame mutable player state: position, the `isMoving` flag, and the
player material's color channels. -/
structure PlayerState where
  x : ℚ
  y : ℚ
  z : ℚ
  isMoving : Bool
  colorR : ℚ
  colorG : ℚ
  colorB : ℚ
deriving DecidableEq

/-- Player state at scene initialization (src/main.js lines 7, 163-168): position
(0, 1, 0), not moving, white material. -/
def initialPlayerState : PlayerState :=
  { x := 0, y := 1, z := 0, isMoving := false, colorR := 1, colorG := 1, colorB := 1 }

/-- Identity of a scene object, as far as the collision filter cares: the player
mesh, the ground mesh, or any other scene object. -/
inductive SceneObjId where
  | player
  | ground
  | obstacle (i : ℕ)
deriving DecidableEq

/-- One entry of a raycast intersection list. -/
structure RayHit where
  obj : SceneObjId
  distance : ℚ
deriving DecidableEq

/-- Oracle for `raycaster.intersectObjects(scene.children, true)`: origin and
direction to the intersection list (the 3D library returns it sorted by
ascending distance; theorems that rely on that state it as a hypothesis). -/
def Raycast : Type :=
  (ℚ × ℚ × ℚ) → (ℚ × ℚ × ℚ) → List RayHit

/-- The four cardinal ray directions (src/main.js lines 219-224); they are unit
vectors, so the `normalize()` call leaves them unchanged. -/
def collisionDirections : List (ℚ × ℚ × ℚ) :=
  [(1, 0, 0), (-1, 0, 0), (0, 0, 1), (0, 0, -1)]

/-- The filter of src/main.js line 228: drop hits on the player and ground meshes,
keeping order. -/
def nonExcludedHits (hits : List RayHit) : List RayHit :=
  hits.filter (fun h =>
    decide (h.obj ≠ SceneObjId.player) && decide (h.obj ≠ SceneObjId.ground))

/-- Models `checkCollision(newPosition)` (src/main.js lines 218-236): true when, for some
cardinal direction, the first remaining hit lies strictly closer than 0.5. -/
def checkCollision (rc : Raycast) (p : ℚ × ℚ × ℚ) : Bool :=
  collisionDirections.any (fun dir =>
    match (nonExcludedHits (rc p dir)).head? with
    | some h => decide (h.distance < 1/2)
    | none => false)

/-- Models `Math.max(lo, Math.min(hi, v))` (src/main.js lines 252-253). -/
def jsClamp (lo hi v : ℚ) : ℚ :=
  max lo (min hi v)

/-- Intended x displacement from the held keys (src/main.js lines 240-245). -/
def moveX (k : Keys) : ℚ :=
  (if k.left then -playerSpeed else 0) + (if k.right then playerSpeed else 0)

/-- Intended z displacement from the held keys (src/main.js lines 240-245). -/
def moveZ (k : Keys) : ℚ :=
  (if k.forward then -playerSpeed else 0) + (if k.backward then playerSpeed else 0)

/-- The candidate position of a frame (src/main.js lines 247-253): previous
position plus displacement, x and z clamped into the arena bounds, y untouched. -/
def candidate (k : Keys) (s : PlayerState) : ℚ × ℚ × ℚ :=
  (jsClamp moveBounds.xMin moveBounds.xMax (s.x + moveX k), s.y,
   jsClamp moveBounds.zMin moveBounds.zMax (s.z + moveZ k))

/-- The vertical update (src/main.js lines 260-265): descend by the gravity step
while more than 0.001 above ground level, otherwise snap to ground level. This
is the exact-rational idealization of `y -= 0.01`; the source's IEEE double
subtraction rounds, so the real trajectory of `y` deviates from this function
near ground level (from y = 1.0 the real program reaches a slightly negative y
before snapping to 0). Claims settled here use it only inside facts that are
insensitive to that rounding. -/
def gravityStep (y : ℚ) : ℚ :=
  if y > groundLevel + 1/1000 then y - gravity else groundLevel

/-- The flag `isMovingNow` (src/main.js line 268). -/
def movingFlag (k : Keys) : Bool :=
  k.forward || k.backward || k.left || k.right

/-- The `isMoving` transition (src/main.js lines 269-273). -/
def updateMoving (k : Keys) (old : Bool) : Bool :=
  if movingFlag k && !old then true
  else if !(movingFlag k) && old then false
  else old

/-- JavaScript `Math.round` on the nonnegative values that arise here. -/
def jsRound (q : ℚ) : ℤ :=
  Int.floor (q + 1/2)

/-- Channel quantization performed by reading the material color back through
`getHex()` and reconstructing a color from the integer (src/main.js line 276). -/
def quantChannel (c : ℚ) : ℚ :=
  (jsRound (max 0 (min 255 (c * 255))) : ℚ) / 255

/-- One channel of `Color.lerp` with factor 0.1 (src/main.js line 278). -/
def lerpChannel (c target : ℚ) : ℚ :=
  c + (target - c) * (1/10)

/-- Channel value of the idle target color `0x888888`. -/
def idleChannel : ℚ := 136/255

/-- Per-channel color update of a frame (src/main.js lines 276-279): quantize the
current channel, then interpolate toward white when moving, gray when idle. -/
def colorStep (moving : Bool) (c : ℚ) : ℚ :=
  lerpChannel (quantChannel c) (if moving then 1 else idleChannel)

/-- Models `applyMovement()` (src/main.js lines 239-280): compute the clamped candidate,
keep the previous position if the collision check rejects it, apply the vertical
update, recompute the movement flag and interpolate the material color. -/
def applyMovement (rc : Raycast) (k : Keys) (s : PlayerState) : PlayerState :=
  let cand := candidate k s
  let pos := if checkCollision rc cand then (s.x, s.y, s.z) else cand
  let newMoving := updateMoving k s.isMoving
  { x := pos.1
    y := gravityStep pos.2.1
    z := pos.2.2
    isMoving := newMoving
    colorR := colorStep newMoving s.colorR
    colorG := colorStep newMoving s.colorG
    colorB := colorStep newMoving s.colorB }

/-- Player states reachable from scene initialization by any sequence of frames,
with arbitrary held keys and arbitrary scene raycast results each frame. -/
inductive Reachable : PlayerState → Prop
  | init : Reachable initialPlayerState
  | step (rc : Raycast) (k : Keys) {s : PlayerState} :
      Reachable s → Reachable (applyMovement rc k s)

/-- The player's horizontal position lies inside the arena bounds. -/
def inArenaXZ (s : PlayerState) : Prop :=
  moveBounds.xMin ≤ s.x ∧ s.x ≤ moveBounds.xMax ∧
    moveBounds.zMin ≤ s.z ∧ s.z ≤ moveBounds.zMax

/-- The raycast oracle returns every intersection list sorted by ascending
distance, as the 3D library guarantees. -/
def SortedRaycast (rc : Raycast) : Prop :=
  ∀ p dir, List.Pairwise (fun a b : RayHit => a.distance ≤ b.distance) (rc p dir)

/-- Holds when `h` is a nearest intersection among those not filtered out as the player or
ground mesh. -/
def nearestHit (hits : List RayHit) (h : RayHit) : Prop :=
  h ∈ nonExcludedHits hits ∧ ∀ h2 ∈ nonExcludedHits hits, h.distance ≤ h2.distance

/-! ## Schema validator and startup gate (src/vite.config.js lines 39-118) -/

/-- A data document on disk: its file name and its (opaque) JSON content. -/
structure DataFile where
  fname : String
  content : ℕ
deriving DecidableEq

/-- The three data directories the validator walks. -/
structure DataStore where
  characters : List DataFile
  dimensions : List DataFile
  crafting : List DataFile

/-- The compiled schema validators: for a document content, `none` when the
document conforms to the schema for its kind, otherwise the validator's error
detail (`validate.errors`, rendered opaquely). -/
structure SchemaCheck where
  character : ℕ → Option String
  dimension : ℕ → Option String
  crafting : ℕ → Option String

/-- One reported violation: the document kind as printed, the offending file and
the error detail. -/
structure ValidationReport where
  source : String
  fname : String
  errors : String
deriving DecidableEq

/-- One step of a validation loop (src/vite.config.js lines 79-106): an invalid
document appends a report and clears the all-valid flag; the loop continues
either way. -/
def vstep (check : ℕ → Option String) (source : String)
    (acc : Bool × List ValidationReport) (f : DataFile) :
    Bool × List ValidationReport :=
  match check f.content with
  | none => acc
  | some e => (false, acc.2 ++ [{ source := source, fname := f.fname, errors := e }])

/-- Models `validateData()` (src/vite.config.js lines 71-109): walk characters, then
dimensions, then crafting recipes, threading the all-valid flag and the report
log through all three loops. -/
def validateData (v : SchemaCheck) (ds : DataStore) : Bool × List ValidationReport :=
  ds.crafting.foldl (vstep v.crafting "crafting recipe")
    (ds.dimensions.foldl (vstep v.dimension "dimension")
      (ds.characters.foldl (vstep v.character "character") (true, [])))

/-- How the process run ends, as far as the gate cares: an exit with a status
code, or proceeding to serve. -/
inductive RunOutcome where
  | exitCode (code : ℕ)
  | serve
deriving DecidableEq

/-- The startup gate (src/vite.config.js lines 111-118): with `--validate`, exit
with status 0 or 1 according to the validation result; without it, exit with
status 1 on any violation, otherwise start the service. Either way the collected
reports have been printed. -/
def runServer (v : SchemaCheck) (ds : DataStore) (validateOnly : Bool) :
    RunOutcome × List ValidationReport :=
  let r := validateData v ds
  if validateOnly then (RunOutcome.exitCode (if r.1 then 0 else 1), r.2)
  else if !r.1 then (RunOutcome.exitCode 1, r.2)
  else (RunOutcome.serve, r.2)

/-! ## Concrete documents used as test inputs -/

/-- The raycast oracle of a scene in which the rays hit nothing. -/
def emptyRaycast : Raycast := fun _ _ => []

/-- The raycast oracle of a scene with an obstacle a quarter unit away in every
direction. -/
def hitRaycast : Raycast :=
  fun _ _ => [{ obj := SceneObjId.obstacle 0, distance := 1/4 }]

/-- Keys with nothing held. -/
def noKeys : Keys :=
  { forward := false, backward := false, left := false, right := false }

/-- Two parts and one weld whose `part0` names no existing part while its
`part1` does: the weld loop skips it, yet `"b"` still lands in `weldedParts`,
so mesh `"b"` is attached neither to a parent nor to the root group. -/
def dWeldDangling : ModelDef :=
  { parts := [{ name := "a", shape := "box", size := [1, 1, 1], color := 0xff0000,
                position := (0, 0, 0) },
              { name := "b", shape := "box", size := [1, 1, 1], color := 0x00ff00,
                position := (0, 1, 0) }]
    welds := [{ part0 := "c", part1 := "b" }] }

/-- Two parts and a single well-formed weld attaching `"b"` under `"a"`. -/
def dWeldSimple : ModelDef :=
  { parts := [{ name := "a", shape := "box", size := [1, 1, 1], color := 0xff0000,
                position := (0, 0, 0) },
              { name := "b", shape := "box", size := [1, 1, 1], color := 0x00ff00,
                position := (0, 1, 0) }]
    welds := [{ part0 := "a", part1 := "b" }] }

/-- Three parts where `"b"` occurs as `part1` of two welds: the later weld
reparents `"b"` under `"c"`, so `"b"` is no longer a descendant of `"a"`. -/
def dWeldRewelded : ModelDef :=
  { parts := [{ name := "a", shape := "box", size := [1, 1, 1], color := 1,
                position := (0, 0, 0) },
              { name := "b", shape := "box", size := [1, 1, 1], color := 2,
                position := (0, 1, 0) },
              { name := "c", shape := "box", size := [1, 1, 1], color := 3,
                position := (0, 2, 0) }]
    welds := [{ part0 := "a", part1 := "b" }, { part0 := "c", part1 := "b" }] }

/-- A one-part character model: a single green sphere named `"body"`. -/
def dBok : ModelDef :=
  { parts := [{ name := "body", shape := "sphere", size := [1/2, 0, 0],
                color := 0x00ff00, position := (0, 0, 0) }]
    welds := [] }

/-- A model-definition map containing only the character `"Bok"`. -/
def bokModels : String → Option ModelDef :=
  fun n => if n = "Bok" then some dBok else none

/-- A data store with one character document, one dimension document and one
crafting document, the character document invalid. -/
def sampleStore : DataStore :=
  { characters := [{ fname := "bok.json", content := 0 }]
    dimensions := [{ fname := "overworld.json", content := 1 }]
    crafting := [{ fname := "pickaxe.json", content := 2 }] }

/-- Schema validators under which exactly the character document of
`sampleStore` is invalid. -/
def sampleCheck : SchemaCheck :=
  { character := fun c => if c = 0 then some "role must be one of ally, enemy, mini-boss, boss" else none
    dimension := fun _ => none
    crafting := fun _ => none }


/-! ## Lemmas about the dictionary machinery -/

theorem memb_iff {n : String} {l : List String} : memb n l = true ↔ n ∈ l := by
  induction l with
  | nil => simp [memb]
  | cons a t ih =>
    simp only [memb, Bool.or_eq_true, beq_iff_eq, ih, List.mem_cons]
    exact or_congr_left (by exact ⟨fun h => h.symm, fun h => h.symm⟩)

theorem alookup_upsert {α : Type} (l : List (String × α)) (k q : String) (v : α) :
    alookup (upsert l k v) q = if k = q then some v else alookup l q := by
  induction l with
  | nil => simp [upsert, alookup]
  | cons p t ih =>
    obtain ⟨k1, v1⟩ := p
    by_cases h1 : k1 = k
    · subst h1
      by_cases h2 : k1 = q <;> simp [upsert, alookup, h2]
    · by_cases h2 : k1 = q
      · subst h2
        have : ¬ k = k1 := fun h => h1 h.symm
        simp [upsert, alookup, h1, this]
      · by_cases h3 : k = q
        · subst h3
          simp [upsert, alookup, h1, h2, ih]
        · simp [upsert, alookup, h1, h2, h3, ih]

theorem mem_map_fst_upsert {α : Type} (l : List (String × α)) (k q : String) (v : α) :
    q ∈ (upsert l k v).map Prod.fst ↔ q ∈ l.map Prod.fst ∨ q = k := by
  induction l with
  | nil => simp [upsert]
  | cons p t ih =>
    obtain ⟨k1, v1⟩ := p
    by_cases h1 : k1 = k
    · subst h1
      simp [upsert]
      tauto
    · simp [upsert, h1, ih]
      tauto

theorem upsert_of_not_mem {α : Type} (l : List (String × α)) (k : String) (v : α)
    (h : k ∉ l.map Prod.fst) : upsert l k v = l ++ [(k, v)] := by
  induction l with
  | nil => simp [upsert]
  | cons p t ih =>
    obtain ⟨k1, v1⟩ := p
    simp only [List.map_cons, List.mem_cons] at h
    push_neg at h
    have h1 : k1 ≠ k := fun hk => h.1 hk.symm
    simp [upsert, h1, ih h.2]

theorem alookup_of_forall {α : Type} (P : α → Prop) (l : List (String × α)) (k : String)
    (v : α) (hl : ∀ p ∈ l, P p.2) (h : alookup l k = some v) : P v := by
  induction l with
  | nil => simp [alookup] at h
  | cons p t ih =>
    obtain ⟨k1, v1⟩ := p
    by_cases h1 : k1 = k
    · simp [alookup, h1] at h
      exact h ▸ hl (k1, v1) (List.mem_cons_self _ _)
    · simp only [alookup, if_neg h1] at h
      exact ih (fun p hp => hl p (List.mem_cons_of_mem _ hp)) h

/-! ## Lemmas about the parts dictionary -/

theorem foldl_upsert_nodup (ps : List PartSpec) (acc : List (String × Mesh))
    (hdisj : ∀ p ∈ ps, p.name ∉ acc.map Prod.fst)
    (hnd : (ps.map PartSpec.name).Nodup) :
    ps.foldl (fun a p => upsert a p.name (buildMesh p)) acc
      = acc ++ ps.map (fun p => (p.name, buildMesh p)) := by
  induction ps generalizing acc with
  | nil => simp
  | cons p t ih =>
    rw [List.foldl_cons, upsert_of_not_mem acc p.name (buildMesh p)
      (hdisj p (List.mem_cons_self _ _))]
    rw [List.map_cons, List.nodup_cons] at hnd
    rw [ih (acc ++ [(p.name, buildMesh p)]) ?_ hnd.2]
    · simp
    · intro q hq
      simp only [List.map_append, List.mem_append, List.map_cons]
      rintro (hmem | hmem)
      · exact hdisj q (List.mem_cons_of_mem _ hq) hmem
      · simp only [List.map_nil, List.mem_singleton] at hmem
        exact hnd.1 (hmem ▸ List.mem_map_of_mem PartSpec.name hq)

theorem partsDict_of_nodup (d : ModelDef) (h : (d.parts.map PartSpec.name).Nodup) :
    partsDict d = d.parts.map (fun p => (p.name, buildMesh p)) := by
  have := foldl_upsert_nodup d.parts [] (by simp) h
  simpa [partsDict] using this

theorem partKeys_length_of_nodup (d : ModelDef) (h : (d.parts.map PartSpec.name).Nodup) :
    (partKeys d).length = d.parts.length := by
  rw [partKeys, partsDict_of_nodup d h]
  simp


/-! ## Lemmas about the weld loop -/

theorem foldl_addWeld_isSome (d : ModelDef) (l : List WeldSpec)
    (acc : List (String × String)) (n : String)
    (h : (alookup acc n).isSome = true ∨ ∃ w ∈ l, weldValid d w = true ∧ w.part1 = n) :
    (alookup (l.foldl (addWeld d) acc) n).isSome = true := by
  induction l generalizing acc with
  | nil =>
    rcases h with h | ⟨w, hw, _⟩
    · exact h
    · simp at hw
  | cons w t ih =>
    rw [List.foldl_cons]
    apply ih
    rcases h with h | ⟨w2, hw2, hv, hp⟩
    · left
      unfold addWeld
      split
      · rw [alookup_upsert]
        split
        · simp
        · exact h
      · exact h
    · rcases List.mem_cons.mp hw2 with rfl | hmem
      · left
        unfold addWeld
        rw [if_pos hv, alookup_upsert, if_pos hp]
        simp
      · exact Or.inr ⟨w2, hmem, hv, hp⟩

theorem foldl_addWeld_some (d : ModelDef) (l : List WeldSpec)
    (acc : List (String × String)) (n p : String)
    (h : alookup (l.foldl (addWeld d) acc) n = some p) :
    alookup acc n = some p ∨ ∃ w ∈ l, weldValid d w = true ∧ w.part0 = p := by
  induction l generalizing acc with
  | nil => exact Or.inl h
  | cons w t ih =>
    rw [List.foldl_cons] at h
    rcases ih _ h with h2 | ⟨w2, hmem, hv, hp⟩
    · unfold addWeld at h2
      by_cases hv : weldValid d w = true
      · rw [if_pos hv, alookup_upsert] at h2
        by_cases hp : w.part1 = n
        · rw [if_pos hp] at h2
          exact Or.inr ⟨w, List.mem_cons_self _ _, hv, Option.some_inj.mp h2⟩
        · rw [if_neg hp] at h2
          exact Or.inl h2
      · rw [if_neg hv] at h2
        exact Or.inl h2
    · exact Or.inr ⟨w2, List.mem_cons_of_mem _ hmem, hv, hp⟩

theorem foldl_addWeld_frozen (d : ModelDef) (l : List WeldSpec)
    (acc : List (String × String)) (n : String)
    (h : ∀ w ∈ l, weldValid d w = true → w.part1 ≠ n) :
    alookup (l.foldl (addWeld d) acc) n = alookup acc n := by
  induction l generalizing acc with
  | nil => rfl
  | cons w t ih =>
    rw [List.foldl_cons, ih _ (fun w2 hm => h w2 (List.mem_cons_of_mem _ hm))]
    unfold addWeld
    by_cases hv : weldValid d w = true
    · rw [if_pos hv, alookup_upsert, if_neg (h w (List.mem_cons_self _ _) hv)]
    · rw [if_neg hv]

theorem parentOf_isSome (d : ModelDef) (n : String)
    (h : ∃ w ∈ d.welds, weldValid d w = true ∧ w.part1 = n) :
    ∃ p, parentOf d n = some p := by
  have := foldl_addWeld_isSome d d.welds [] n (Or.inr h)
  rw [parentOf, parentAssoc]
  exact Option.isSome_iff_exists.mp this

theorem parentOf_defined (d : ModelDef) (n p : String) (h : parentOf d n = some p) :
    partDefined d p = true := by
  rw [parentOf, parentAssoc] at h
  rcases foldl_addWeld_some d d.welds [] n p h with h2 | ⟨w, _, hv, hp⟩
  · simp [alookup] at h2
  · unfold weldValid at hv
    simp only [Bool.and_eq_true] at hv
    exact hp ▸ hv.1.1


/-! ## Reachability of part meshes from the root group -/

theorem parentIter_add (d : ModelDef) (a b : ℕ) (n : String) :
    parentIter d (a + b) n = (parentIter d b n).bind (parentIter d a) := by
  induction b generalizing n with
  | zero => simp [parentIter]
  | succ b ih =>
    show parentIter d (a + b + 1) n = _
    simp only [parentIter]
    cases hp : parentOf d n with
    | none => simp
    | some p => simp [ih]

theorem attachedB_false_chain (d : ModelDef)
    (hv : ∀ w ∈ d.welds, partDefined d w.part1 = true → weldValid d w = true) :
    ∀ fuel n, partDefined d n = true → attachedB d fuel n = false →
      ∀ k ≤ fuel, ∃ m, parentIter d k n = some m ∧ partDefined d m = true := by
  intro fuel
  induction fuel with
  | zero =>
    intro n hn _ k hk
    have hk0 : k = 0 := Nat.le_zero.mp hk
    subst hk0
    exact ⟨n, rfl, hn⟩
  | succ fuel ih =>
    intro n hn hfalse k hk
    by_cases hw : memb n (weldedNames d) = true
    · have hex : ∃ w ∈ d.welds, weldValid d w = true ∧ w.part1 = n := by
        have hmem := memb_iff.mp hw
        rw [weldedNames] at hmem
        obtain ⟨w, hwmem, hwn⟩ := List.mem_map.mp hmem
        exact ⟨w, hwmem, hv w hwmem (hwn ▸ hn), hwn⟩
      obtain ⟨p, hp⟩ := parentOf_isSome d n hex
      have hpdef : partDefined d p = true := parentOf_defined d n p hp
      have hstep : attachedB d (fuel+1) n = attachedB d fuel p := by
        simp [attachedB, hw, hp]
      rw [hstep] at hfalse
      cases k with
      | zero => exact ⟨n, rfl, hn⟩
      | succ k =>
        obtain ⟨m, hm, hmd⟩ := ih p hpdef hfalse k (Nat.succ_le_succ_iff.mp hk)
        exact ⟨m, by simp [parentIter, hp, hm], hmd⟩
    · exfalso
      have hw2 : memb n (weldedNames d) = false := by simpa using hw
      simp [attachedB, hw2, hn] at hfalse

theorem attached_of_valid (d : ModelDef)
    (hv : ∀ w ∈ d.welds, partDefined d w.part1 = true → weldValid d w = true)
    (hacyc : ∀ n ∈ partKeys d, ∀ k < (partKeys d).length, parentIter d (k+1) n ≠ some n) :
    ∀ n, partDefined d n = true → attached d n = true := by
  intro n hn
  by_contra hne
  have hfalse : attachedB d ((partKeys d).length + 1) n = false := by
    cases h : attachedB d ((partKeys d).length + 1) n
    · rfl
    · exact absurd h (by simpa [attached] using hne)
  set L := (partKeys d).length with hLdef
  have chain := attachedB_false_chain d hv (L+1) n hn hfalse
  have hLpos : 0 < L := by
    rw [hLdef]
    exact List.length_pos.mpr (List.ne_nil_of_mem (memb_iff.mp hn))
  have key : ∀ i j : ℕ, i < j → j < L + 1 →
      (parentIter d i n).getD "" = (parentIter d j n).getD "" → False := by
    intro i j hij hjL hgd
    obtain ⟨mi, hmi, hmid⟩ := chain i (by omega)
    obtain ⟨mj, hmj, _⟩ := chain j (by omega)
    rw [hmi, hmj] at hgd
    simp only [Option.getD_some] at hgd
    subst hgd
    have hsplit : parentIter d ((j - i) + i) n = (parentIter d i n).bind (parentIter d (j - i)) :=
      parentIter_add d (j - i) i n
    rw [Nat.sub_add_cancel (le_of_lt hij), hmi, hmj] at hsplit
    have hcyc : parentIter d (j - i) mi = some mi := by
      simpa using hsplit.symm
    have hone : 1 ≤ j - i := by omega
    have := hacyc mi (memb_iff.mp hmid) (j - i - 1) (by omega)
    rw [Nat.sub_add_cancel hone] at this
    exact this hcyc
  have hmapsto : ∀ k ∈ Finset.range (L+1), ((parentIter d k n).getD "") ∈ (partKeys d).toFinset := by
    intro k hk
    obtain ⟨m, hm, hmd⟩ := chain k (by exact Nat.le_of_lt_succ (Finset.mem_range.mp hk) |>.trans (Nat.le_succ L))
    rw [hm]
    exact List.mem_toFinset.mpr (memb_iff.mp hmd)
  have hcard : (partKeys d).toFinset.card < (Finset.range (L+1)).card := by
    rw [Finset.card_range]
    exact Nat.lt_succ_of_le (List.toFinset_card_le _)
  obtain ⟨i, hi, j, hj, hij, heq⟩ :=
    Finset.exists_ne_map_eq_of_card_lt_of_maps_to hcard hmapsto
  rcases lt_or_gt_of_ne hij with h | h
  · exact key i j h (Finset.mem_range.mp hj) heq
  · exact key j i h (Finset.mem_range.mp hi) heq.symm

theorem filter_all_length {α : Type} (p : α → Bool) (l : List α)
    (h : ∀ a ∈ l, p a = true) : (l.filter p).length = l.length := by
  induction l with
  | nil => rfl
  | cons a t ih =>
    simp [List.filter_cons, h a (List.mem_cons_self _ _),
      ih fun x hx => h x (List.mem_cons_of_mem _ hx)]


/-! ## C1: descendant primitive count of a built model -/

/-- C1 (counterexample): the claim quantifies over all weld lists, including
welds whose `part0` names no existing part. In `dWeldDangling` the weld
`("c", "b")` resolves no parent for `"b"`, yet `"b"` still lands in
`weldedParts` and is therefore never attached to the root group: the root has 1
descendant primitive while the document has 2 PartSpecs, so the claimed count
equality fails. -/
theorem C1_counterexample :
    rootDescendantMeshCount dWeldDangling ≠ dWeldDangling.parts.length := by
  decide

/-- C1 (amended): for every character document with at least one PartSpec whose
part names are distinct, in which every weld with an existing `part1` also has
an existing `part0` different from it, and whose final parent assignment is
acyclic, the total number of primitive meshes reachable as descendants of the
root group equals the number of PartSpecs. -/
theorem C1_model_count (d : ModelDef)
    (_hne : d.parts ≠ [])
    (hnodup : (d.parts.map PartSpec.name).Nodup)
    (hv : ∀ w ∈ d.welds, partDefined d w.part1 = true → weldValid d w = true)
    (hacyc : ∀ n ∈ partKeys d, ∀ k < (partKeys d).length, parentIter d (k+1) n ≠ some n) :
    rootDescendantMeshCount d = d.parts.length := by
  have hall : ∀ n ∈ partKeys d, attached d n = true := fun n hn =>
    attached_of_valid d hv hacyc n (memb_iff.mpr hn)
  rw [rootDescendantMeshCount, filter_all_length (attached d) (partKeys d) hall]
  exact partKeys_length_of_nodup d hnodup

/-- Witness for C1: the amended hypotheses hold of `dWeldSimple` and the count
equality follows by the theorem. -/
theorem C1_model_count_witness :
    (dWeldSimple.parts ≠ [] ∧ (dWeldSimple.parts.map PartSpec.name).Nodup ∧
      (∀ w ∈ dWeldSimple.welds,
        partDefined dWeldSimple w.part1 = true → weldValid dWeldSimple w = true) ∧
      (∀ n ∈ partKeys dWeldSimple, ∀ k < (partKeys dWeldSimple).length,
        parentIter dWeldSimple (k+1) n ≠ some n)) ∧
    rootDescendantMeshCount dWeldSimple = dWeldSimple.parts.length :=
  ⟨⟨by decide, by decide, by decide, by decide⟩,
   C1_model_count dWeldSimple (by decide) (by decide) (by decide) (by decide)⟩

/-! ## C2: welds make `part1` a descendant of `part0` -/

/-- C2 (counterexample): the claim quantifies over weld lists in which the same
name occurs as `part1` more than once. In `dWeldRewelded` both parts of the weld
`("a", "b")` exist, but the later weld `("c", "b")` reparents `"b"` under `"c"`,
so `"b"` is not a descendant of `"a"` in the output tree. -/
theorem C2_counterexample :
    (⟨"a", "b"⟩ : WeldSpec) ∈ dWeldRewelded.welds ∧
    partDefined dWeldRewelded "a" = true ∧
    partDefined dWeldRewelded "b" = true ∧
    ¬ isDescendant dWeldRewelded "b" "a" := by
  refine ⟨by decide, by decide, by decide, ?_⟩
  unfold isDescendant
  decide

/-- C2 (amended): for every weld `(p0, p1)` that reparents (both names exist and
differ) and whose `part1` is not reparented again by a later reparenting weld,
`p1`'s primitive is a descendant of `p0`'s primitive; and for every weld of the
document without exception (dangling and superseded welds included), the
primitive named by its `part1` is never a direct child of the model's root
group, since every `part1` enters `weldedParts` and is skipped by the
root-attachment loop. -/
theorem C2_weld_descendant (d : ModelDef) (l1 l2 : List WeldSpec) (w : WeldSpec)
    (hsplit : d.welds = l1 ++ w :: l2)
    (hvalid : weldValid d w = true)
    (hlast : ∀ w2 ∈ l2, weldValid d w2 = true → w2.part1 ≠ w.part1) :
    isDescendant d w.part1 w.part0 ∧ ∀ w2 ∈ d.welds, w2.part1 ∉ rootChildren d := by
  have hpar : parentOf d w.part1 = some w.part0 := by
    rw [parentOf, parentAssoc, hsplit, List.foldl_append, List.foldl_cons]
    rw [foldl_addWeld_frozen d l2 _ _ hlast]
    unfold addWeld
    rw [if_pos hvalid, alookup_upsert, if_pos rfl]
  constructor
  · have hdef : partDefined d w.part1 = true := by
      unfold weldValid at hvalid
      simp only [Bool.and_eq_true] at hvalid
      exact hvalid.1.2
    have hpos : 0 < (partKeys d).length :=
      List.length_pos.mpr (List.ne_nil_of_mem (memb_iff.mp hdef))
    obtain ⟨f, hf⟩ : ∃ f, (partKeys d).length = f + 1 := ⟨(partKeys d).length - 1, by omega⟩
    rw [isDescendant, hf]
    simp [descendantB, hpar]
  · intro w2 hw2 hmem
    have h2 := (List.mem_filter.mp hmem).2
    have hwn : memb w2.part1 (weldedNames d) = true := by
      apply memb_iff.mpr
      rw [weldedNames]
      exact List.mem_map_of_mem _ hw2
    rw [hwn] at h2
    simp at h2

/-- Witness for C2: the single weld of `dWeldSimple` satisfies the amended
hypotheses, its `part1` is a descendant of its `part0`, and no weld's `part1`
hangs off the root. -/
theorem C2_weld_descendant_witness :
    weldValid dWeldSimple ⟨"a", "b"⟩ = true ∧
    (isDescendant dWeldSimple "b" "a" ∧
      ∀ w2 ∈ dWeldSimple.welds, w2.part1 ∉ rootChildren dWeldSimple) :=
  ⟨by decide, C2_weld_descendant dWeldSimple [] [] ⟨"a", "b"⟩ rfl (by decide) (by simp)⟩


/-! ## C7: fallback placement for characters without a model definition -/

theorem placeCharacters_length (models : String → Option ModelDef)
    (chars : List CharEntry) (startX : ℚ) (i : ℕ) :
    (placeCharacters models chars startX i).length = chars.length := by
  induction chars generalizing i with
  | nil => rfl
  | cons c t ih => simp [placeCharacters, ih]

theorem placeCharacters_get (models : String → Option ModelDef)
    (chars : List CharEntry) (startX : ℚ) (i j : ℕ) (hj : j < chars.length)
    (hj2 : j < (placeCharacters models chars startX i).length) :
    (placeCharacters models chars startX i).get ⟨j, hj2⟩
      = placeEntity models (chars.get ⟨j, hj⟩) (startX + ((i + j : ℕ) : ℚ) * spacing) := by
  induction chars generalizing i j with
  | nil => exact absurd hj (by simp)
  | cons c t ih =>
    cases j with
    | zero => simp [placeCharacters]
    | succ j =>
      have hjt : j < t.length := by simpa using hj
      have hstep : (placeCharacters models (c :: t) startX i).get ⟨j + 1, hj2⟩
          = (placeCharacters models t startX (i + 1)).get
              ⟨j, by simpa [placeCharacters_length] using hjt⟩ := by
        simp [placeCharacters]
      rw [hstep, ih (i + 1) j hjt]
      have harith : i + 1 + j = i + (j + 1) := by omega
      rw [harith]
      simp

/-- C7 (counterexample): the claim calls the placeholder a unit cube; the
placeholder the scene assembler actually builds for a character without a model
definition is a cube of side 0.5. -/
theorem C7_counterexample :
    (placeCharacters (fun _ => none) [⟨"Ghost", "ally"⟩] 0 0).head? ≠
      some { name := "Ghost", x := 0, y := 1/2,
             visual := PlacedVisual.fallbackCube
               { geometry := Geometry.box (some 1) (some 1) (some 1)
                 color := 0xffffff
                 position := (0, 1/2, 0)
                 userDataName := some "Ghost" } } := by
  have h : (placeCharacters (fun _ => none) [⟨"Ghost", "ally"⟩] 0 0).head? =
      some { name := "Ghost", x := 0, y := 1/2,
             visual := PlacedVisual.fallbackCube (fallbackMesh 0 "Ghost") } := by
    simp [placeCharacters, placeEntity, createCharacterModel, spacing]
  rw [h]
  simp only [ne_eq, Option.some_inj, fallbackMesh]
  intro hcontra
  have := congrArg PlacedEntity.visual hcontra
  simp only [PlacedVisual.fallbackCube.injEq, Mesh.mk.injEq, Geometry.box.injEq,
    Option.some_inj] at this
  have h2 := this.1.1
  norm_num at h2

/-- C7 (amended): for every character whose name has no entry in the
model-definition map, scene assembly does not fail: the assembler substitutes a
cube placeholder of side 0.5 (not a unit cube) at the character's row slot
`startX + index * spacing`, height 0.5, tagged with the character's name, and
every character of the bucket is still placed. -/
theorem C7_fallback (models : String → Option ModelDef) (chars : List CharEntry)
    (startX : ℚ) (j : ℕ) (hj : j < chars.length)
    (hmiss : models (chars.get ⟨j, hj⟩).name = none) :
    (placeCharacters models chars startX 0).length = chars.length ∧
    (placeCharacters models chars startX 0).get
        ⟨j, by rw [placeCharacters_length]; exact hj⟩ =
      { name := (chars.get ⟨j, hj⟩).name
        x := startX + (j : ℚ) * spacing
        y := 1/2
        visual := PlacedVisual.fallbackCube
          (fallbackMesh (startX + (j : ℚ) * spacing) (chars.get ⟨j, hj⟩).name) } := by
  refine ⟨placeCharacters_length models chars startX 0, ?_⟩
  rw [placeCharacters_get models chars startX 0 j hj]
  simp only [List.get_eq_getElem] at hmiss
  simp [placeEntity, createCharacterModel, hmiss]

/-- Witness for C7: a roster with one character and an empty model map. -/
theorem C7_fallback_witness :
    (placeCharacters (fun _ => none) [⟨"Ghost", "ally"⟩] 0 0).length =
      ([⟨"Ghost", "ally"⟩] : List CharEntry).length ∧
    (placeCharacters (fun _ => none) [⟨"Ghost", "ally"⟩] 0 0).get
        ⟨0, by rw [placeCharacters_length]; decide⟩ =
      { name := (([⟨"Ghost", "ally"⟩] : List CharEntry).get ⟨0, by decide⟩).name
        x := 0 + ((0 : ℕ) : ℚ) * spacing
        y := 1/2
        visual := PlacedVisual.fallbackCube
          (fallbackMesh (0 + ((0 : ℕ) : ℚ) * spacing)
            (([⟨"Ghost", "ally"⟩] : List CharEntry).get ⟨0, by decide⟩).name) } :=
  C7_fallback (fun _ => none) [⟨"Ghost", "ally"⟩] 0 0 (by decide) rfl

/-! ## C8: shape-to-geometry mapping -/

/-- C8 (counterexample): the shape string `"cylinder (leg)"` is outside the
claim's enumeration, so the claimed mapping sends it to a fallback box; the code
recognizes it and builds a cylinder. -/
theorem C8_counterexample :
    createGeometry "cylinder (leg)" [1, 2, 3] ≠ claimedGeometry "cylinder (leg)" [1, 2, 3] := by
  decide

/-- C8 (amended): `createGeometry` realizes the claimed case-insensitive
shape-to-geometry mapping once the mapping also recognizes `"cylinder (leg)"` as
a cylinder and the fallback box defaults to 0.5 on any axis whose size component
is missing or zero. -/
theorem C8_geometry_mapping :
    ∀ shape size, createGeometry shape size = claimedGeometryAmended shape size :=
  fun _ _ => rfl

/-! ## C9: click reporting for placed characters -/

/-- C9 (code bug evaluation): the character `"Bok"` has a model definition, and
placement tags the built root group with the name; but the raycast of the click
listener intersects the part meshes, and the part mesh built for `"body"`
carries no `userData.name`, so the click report for a hit on the model is the
undefined name rather than `"Bok"`. -/
theorem C9_click_reports_undefined :
    (placeCharacters bokModels [⟨"Bok", "ally"⟩] (-5) 0).map PlacedEntity.name = ["Bok"] ∧
    (∀ m ∈ modelMeshes dBok, m.userDataName = none) ∧
    clickReport (modelMeshes dBok) = some none ∧
    clickReport (modelMeshes dBok) ≠ some (some "Bok") := by
  refine ⟨?_, by decide, by decide, by decide⟩
  simp [placeCharacters, placeEntity, createCharacterModel, bokModels]


/-! ## Player controller lemmas -/

theorem applyMovement_eq (rc : Raycast) (k : Keys) (s : PlayerState) :
    applyMovement rc k s =
      { x := if checkCollision rc (candidate k s) then s.x else (candidate k s).1
        y := gravityStep s.y
        z := if checkCollision rc (candidate k s) then s.z else (candidate k s).2.2
        isMoving := updateMoving k s.isMoving
        colorR := colorStep (updateMoving k s.isMoving) s.colorR
        colorG := colorStep (updateMoving k s.isMoving) s.colorG
        colorB := colorStep (updateMoving k s.isMoving) s.colorB } := by
  by_cases h : checkCollision rc (candidate k s) = true
  · simp [applyMovement, h]
  · simp only [applyMovement, h]
    simp [h]
    rfl

theorem jsClamp_bounds (lo hi v : ℚ) (h : lo ≤ hi) :
    lo ≤ jsClamp lo hi v ∧ jsClamp lo hi v ≤ hi := by
  unfold jsClamp
  exact ⟨le_max_left _ _, max_le h (min_le_left _ _)⟩

theorem inArena_step (rc : Raycast) (k : Keys) (s : PlayerState)
    (h : inArenaXZ s) : inArenaXZ (applyMovement rc k s) := by
  obtain ⟨h1, h2, h3, h4⟩ := h
  have hx := jsClamp_bounds moveBounds.xMin moveBounds.xMax (s.x + moveX k)
    (by norm_num [moveBounds])
  have hz := jsClamp_bounds moveBounds.zMin moveBounds.zMax (s.z + moveZ k)
    (by norm_num [moveBounds])
  have hxeq : (applyMovement rc k s).x =
      if checkCollision rc (candidate k s) then s.x else (candidate k s).1 := by
    rw [applyMovement_eq]
  have hzeq : (applyMovement rc k s).z =
      if checkCollision rc (candidate k s) then s.z else (candidate k s).2.2 := by
    rw [applyMovement_eq]
  refine ⟨?_, ?_, ?_, ?_⟩
  · rw [hxeq]
    split
    · exact h1
    · exact hx.1
  · rw [hxeq]
    split
    · exact h2
    · exact hx.2
  · rw [hzeq]
    split
    · exact h3
    · exact hz.1
  · rw [hzeq]
    split
    · exact h4
    · exact hz.2

theorem reachable_inArena (s : PlayerState) (h : Reachable s) : inArenaXZ s := by
  induction h with
  | init =>
    refine ⟨?_, ?_, ?_, ?_⟩ <;> norm_num [initialPlayerState, moveBounds]
  | step rc k hs ih => exact inArena_step rc k _ ih

/-! ## C3: horizontal position stays inside the arena -/

/-- C3: from any reachable player state, one execution of the per-frame movement
update leaves the player position inside the arena bounds, for every combination
of held keys and every obstacle configuration. -/
theorem C3_arena_bounds (s : PlayerState) (hs : Reachable s) (rc : Raycast) (k : Keys) :
    moveBounds.xMin ≤ (applyMovement rc k s).x ∧
    (applyMovement rc k s).x ≤ moveBounds.xMax ∧
    moveBounds.zMin ≤ (applyMovement rc k s).z ∧
    (applyMovement rc k s).z ≤ moveBounds.zMax :=
  reachable_inArena _ (Reachable.step rc k hs)

/-- Witness for C3: one frame from the initial state with forward and right held
and no obstacles. -/
theorem C3_arena_bounds_witness :
    moveBounds.xMin ≤ (applyMovement emptyRaycast
        { forward := true, backward := false, left := false, right := true }
        initialPlayerState).x ∧
    (applyMovement emptyRaycast
        { forward := true, backward := false, left := false, right := true }
        initialPlayerState).x ≤ moveBounds.xMax ∧
    moveBounds.zMin ≤ (applyMovement emptyRaycast
        { forward := true, backward := false, left := false, right := true }
        initialPlayerState).z ∧
    (applyMovement emptyRaycast
        { forward := true, backward := false, left := false, right := true }
        initialPlayerState).z ≤ moveBounds.zMax :=
  C3_arena_bounds initialPlayerState Reachable.init emptyRaycast
    { forward := true, backward := false, left := false, right := true }

/-! ## C5: all-or-nothing four-ray collision policy -/

/-- C5: the frame's horizontal move is rejected (x and z keep their previous
values) exactly when, for one of the four cardinal rays cast from the clamped
candidate position, the nearest intersection that is neither the player nor the
ground lies strictly closer than the player radius 0.5; otherwise the full
clamped candidate is adopted — there is no partial or sliding resolution. -/
theorem C5_collision_policy (rc : Raycast) (k : Keys) (s : PlayerState)
    (hsorted : SortedRaycast rc) :
    (checkCollision rc (candidate k s) = true ↔
      ∃ dir ∈ collisionDirections, ∃ h : RayHit,
        nearestHit (rc (candidate k s) dir) h ∧ h.distance < 1/2) ∧
    (checkCollision rc (candidate k s) = true →
      (applyMovement rc k s).x = s.x ∧ (applyMovement rc k s).z = s.z) ∧
    (checkCollision rc (candidate k s) = false →
      (applyMovement rc k s).x = (candidate k s).1 ∧
      (applyMovement rc k s).z = (candidate k s).2.2) := by
  refine ⟨?_, ?_, ?_⟩
  · rw [checkCollision, List.any_eq_true]
    constructor
    · rintro ⟨dir, hdir, hmatch⟩
      refine ⟨dir, hdir, ?_⟩
      cases hl : nonExcludedHits (rc (candidate k s) dir) with
      | nil =>
        rw [hl] at hmatch
        simp at hmatch
      | cons a t =>
        rw [hl] at hmatch
        simp only [List.head?_cons, decide_eq_true_eq] at hmatch
        have hs2 : List.Pairwise (fun x y : RayHit => x.distance ≤ y.distance)
            (nonExcludedHits (rc (candidate k s) dir)) :=
          List.Pairwise.filter _ (hsorted _ _)
        rw [hl] at hs2
        refine ⟨a, ⟨by rw [hl]; exact List.mem_cons_self _ _, ?_⟩, hmatch⟩
        intro h2 hh2
        rw [hl] at hh2
        rcases List.mem_cons.mp hh2 with rfl | hm
        · exact le_refl _
        · exact (List.pairwise_cons.mp hs2).1 h2 hm
    · rintro ⟨dir, hdir, h, ⟨hmem, hmin⟩, hlt⟩
      refine ⟨dir, hdir, ?_⟩
      cases hl : nonExcludedHits (rc (candidate k s) dir) with
      | nil =>
        rw [hl] at hmem
        simp at hmem
      | cons a t =>
        have hs2 : List.Pairwise (fun x y : RayHit => x.distance ≤ y.distance)
            (nonExcludedHits (rc (candidate k s) dir)) :=
          List.Pairwise.filter _ (hsorted _ _)
        rw [hl] at hmem hs2
        have hale : a.distance ≤ h.distance := by
          rcases List.mem_cons.mp hmem with rfl | hm
          · exact le_refl _
          · exact (List.pairwise_cons.mp hs2).1 h hm
        simp only [List.head?_cons, decide_eq_true_eq]
        linarith
  · intro hcol
    rw [applyMovement_eq]
    simp [hcol]
  · intro hcol
    rw [applyMovement_eq]
    simp [hcol]

/-- Witness for C5: the empty scene is sorted and its frames adopt the clamped
candidate. -/
theorem C5_collision_policy_witness :
    SortedRaycast emptyRaycast ∧
    (checkCollision emptyRaycast (candidate noKeys initialPlayerState) = false →
      (applyMovement emptyRaycast noKeys initialPlayerState).x =
        (candidate noKeys initialPlayerState).1 ∧
      (applyMovement emptyRaycast noKeys initialPlayerState).z =
        (candidate noKeys initialPlayerState).2.2) :=
  ⟨fun _ _ => List.Pairwise.nil,
   (C5_collision_policy emptyRaycast noKeys initialPlayerState
      (fun _ _ => List.Pairwise.nil)).2.2⟩

/-! ## C10: a rejected frame still performs the other frame effects -/

/-- C10: when the collision check rejects the candidate move, the player's x and
z keep their previous values while the vertical update, the `isMoving`
recomputation and the material color interpolation come out exactly as in a
frame of the same state and keys whose move is not rejected. -/
theorem C10_rejected_frame (rc : Raycast) (k : Keys) (s : PlayerState)
    (hcol : checkCollision rc (candidate k s) = true) :
    (applyMovement rc k s).x = s.x ∧ (applyMovement rc k s).z = s.z ∧
    (applyMovement rc k s).y = (applyMovement emptyRaycast k s).y ∧
    (applyMovement rc k s).isMoving = (applyMovement emptyRaycast k s).isMoving ∧
    (applyMovement rc k s).colorR = (applyMovement emptyRaycast k s).colorR ∧
    (applyMovement rc k s).colorG = (applyMovement emptyRaycast k s).colorG ∧
    (applyMovement rc k s).colorB = (applyMovement emptyRaycast k s).colorB := by
  rw [applyMovement_eq rc, applyMovement_eq emptyRaycast]
  simp [hcol]

/-- Witness for C10: a scene whose obstacle sits a quarter unit from the player
on every ray rejects the frame while x and z keep their values. -/
theorem C10_rejected_frame_witness :
    checkCollision hitRaycast (candidate noKeys initialPlayerState) = true ∧
    (applyMovement hitRaycast noKeys initialPlayerState).x = initialPlayerState.x ∧
    (applyMovement hitRaycast noKeys initialPlayerState).z = initialPlayerState.z := by
  have h : checkCollision hitRaycast (candidate noKeys initialPlayerState) = true := by
    simp [checkCollision, hitRaycast, collisionDirections, nonExcludedHits]
    norm_num
  exact ⟨h, (C10_rejected_frame hitRaycast noKeys initialPlayerState h).1,
    (C10_rejected_frame hitRaycast noKeys initialPlayerState h).2.1⟩

/-! ## C6: schema validation and the startup gate -/

theorem vfold_fst (check : ℕ → Option String) (source : String) (l : List DataFile)
    (acc : Bool × List ValidationReport) :
    (l.foldl (vstep check source) acc).1 =
      (acc.1 && l.all fun f => (check f.content).isNone) := by
  induction l generalizing acc with
  | nil => simp
  | cons f t ih =>
    rw [List.foldl_cons, ih]
    cases hc : check f.content with
    | none => simp [vstep, hc, Bool.and_assoc]
    | some e => simp [vstep, hc]

theorem vfold_snd (check : ℕ → Option String) (source : String) (l : List DataFile)
    (acc : Bool × List ValidationReport) :
    (l.foldl (vstep check source) acc).2 =
      acc.2 ++ l.filterMap (fun f => (check f.content).map
        (fun e => { source := source, fname := f.fname, errors := e })) := by
  induction l generalizing acc with
  | nil => simp
  | cons f t ih =>
    rw [List.foldl_cons, ih]
    cases hc : check f.content with
    | none => simp [vstep, hc]
    | some e => simp [vstep, hc]

/-- C6: validation walks every character, dimension and crafting document,
collects a report (with document kind, file identity and error detail) for each
invalid one without stopping, and is all-valid exactly when every document
passes; with `--validate` the process exits 0 or 1 according to that result and
never serves, and without the flag any violation exits with status 1 before
serving while a fully valid store serves. -/
theorem C6_validator_gate (v : SchemaCheck) (ds : DataStore) :
    ((validateData v ds).1 = true ↔
      (∀ f ∈ ds.characters, v.character f.content = none) ∧
      (∀ f ∈ ds.dimensions, v.dimension f.content = none) ∧
      (∀ f ∈ ds.crafting, v.crafting f.content = none)) ∧
    (validateData v ds).2 =
      (ds.characters.filterMap fun f => (v.character f.content).map
        fun e => { source := "character", fname := f.fname, errors := e }) ++
      (ds.dimensions.filterMap fun f => (v.dimension f.content).map
        fun e => { source := "dimension", fname := f.fname, errors := e }) ++
      (ds.crafting.filterMap fun f => (v.crafting f.content).map
        fun e => { source := "crafting recipe", fname := f.fname, errors := e }) ∧
    (runServer v ds true).1 ≠ RunOutcome.serve ∧
    ((runServer v ds true).1 = RunOutcome.exitCode 0 ↔ (validateData v ds).1 = true) ∧
    ((runServer v ds true).1 = RunOutcome.exitCode 1 ↔ (validateData v ds).1 = false) ∧
    ((validateData v ds).1 = false → (runServer v ds false).1 = RunOutcome.exitCode 1) ∧
    ((validateData v ds).1 = true → (runServer v ds false).1 = RunOutcome.serve) := by
  refine ⟨?_, ?_, ?_, ?_, ?_, ?_, ?_⟩
  · rw [validateData, vfold_fst, vfold_fst, vfold_fst]
    simp [List.all_eq_true, Option.isNone_iff_eq_none, and_assoc]
  · rw [validateData, vfold_snd, vfold_snd, vfold_snd]
    simp [List.append_assoc]
  · cases hval : (validateData v ds).1 <;> simp [runServer, hval]
  · cases hval : (validateData v ds).1 <;> simp [runServer, hval]
  · cases hval : (validateData v ds).1 <;> simp [runServer, hval]
  · intro hval
    simp [runServer, hval]
  · intro hval
    simp [runServer, hval]

/-- Witness for C6: in `sampleStore` the character document is invalid, so the
gate exits with status 1 both with and without the `--validate` flag. -/
theorem C6_validator_gate_witness :
    (validateData sampleCheck sampleStore).1 = false ∧
    (runServer sampleCheck sampleStore false).1 = RunOutcome.exitCode 1 ∧
    (runServer sampleCheck sampleStore true).1 = RunOutcome.exitCode 1 := by
  have h1 : (validateData sampleCheck sampleStore).1 = false := by decide
  exact ⟨h1, (C6_validator_gate sampleCheck sampleStore).2.2.2.2.2.1 h1,
    ((C6_validator_gate sampleCheck sampleStore).2.2.2.2.1).mpr h1⟩

end PixelCraft
